import Mathlib

/-
Verification of the batch-parallel OCR pipeline of the PDF-OCR repository
(src/main.py and src/streamlit_app.py).  The two source variants share the
same core logic: a chunking loop that partitions the page range into
fixed-size batches, a worker `process_pdf_chunk` that rasterizes a page
range, recognizes each page and streams progress events to a queue, a
collection loop that accumulates per-batch outcomes (isolating failures),
and an aggregation step that sorts the page results by page number and
renders one delimited section per page.

The external engine (pdf2image rasterization, pytesseract recognition) is
modelled by its results: the worker receives the outcome of the
`convert_from_path` call as an `Except` value and a recognition function
`String → Except String String` applied to each image.  Images are opaque
and represented by `String`.
-/

namespace OCR

/-- A batch of pages as created by the chunking loop: `id` is the value of
`batch_counter` (counting from 1), `startPage`/`endPage` the inclusive
1-indexed page range handed to the worker. -/
structure Batch where
  id : Nat
  startPage : Nat
  endPage : Nat
  deriving DecidableEq, Repr

/-- Number of elements of Python's `range(lo, hi, step)` for `step ≥ 1`:
`max 0 (ceil((hi - lo) / step))`, which over `Nat` (truncating subtraction)
is `(hi - lo + step - 1) / step`.  The k-th element is `lo + k * step`. -/
def pyRangeLen (lo hi step : Nat) : Nat := (hi - lo + step - 1) / step

/-- The chunking loop of `OCRApp.perform_ocr_multiprocess` (src/main.py
lines 398-407; the identical loop is in src/streamlit_app.py lines
265-277):

    for start in range(1, total_pages + 1, chunk_size):
        end = min(start + chunk_size - 1, total_pages)
        batch_counter += 1

The k-th (0-indexed) iteration has `start = 1 + k * chunk_size` and
`batch_counter = k + 1`. -/
def partition (pageCount chunkSize : Nat) : List Batch :=
  (List.range (pyRangeLen 1 (pageCount + 1) chunkSize)).map
    (fun k =>
      { id := k + 1
        startPage := 1 + k * chunkSize
        endPage := min (1 + k * chunkSize + chunkSize - 1) pageCount })

/-- Progress events put on the multiprocessing queue by the worker:
`('START', batch_id, label)`, `('PROGRESS', batch_id, current, total)` and
`('DONE', batch_id)`. -/
inductive Event where
  | started (batchId : Nat) (label : String)
  | progress (batchId : Nat) (current : Nat) (total : Nat)
  | done (batchId : Nat)
  deriving DecidableEq, Repr

/-- A worker's return value: `(True, results)` with the per-page results,
or `(False, str(e))` carrying only the error message. -/
inductive BatchOutcome where
  | success (pages : List (Nat × String))
  | failure (msg : String)
  deriving DecidableEq, Repr

/-- The page results carried by an outcome (a failure carries none). -/
def BatchOutcome.pages : BatchOutcome → List (Nat × String)
  | BatchOutcome.success ps => ps
  | BatchOutcome.failure _ => []

/-- The error message carried by an outcome (a success carries none). -/
def BatchOutcome.errMsg : BatchOutcome → Option String
  | BatchOutcome.success _ => none
  | BatchOutcome.failure m => some m

/-- The label of the f-string `f"Pages {start_page}-{end_page}"` used in
the worker's START event. -/
def chunkLabel (s e : Nat) : String :=
  "Pages " ++ toString s ++ "-" ++ toString e

/-- The per-image loop of `process_pdf_chunk` (src/main.py lines 182-190):

    for i, img in enumerate(images):
        text = pytesseract.image_to_string(img, lang='eng')
        results.append((start_page + i, text))
        queue.put(('PROGRESS', batch_id, i + 1, total))

`recog` is the recognition call; on its failure the exception propagates,
the events already put on the queue remain, and the accumulated results
are discarded (the handler returns only the message).  `i` is the value of
the enumeration counter at the head of the remaining image list. -/
def ocrLoop (recog : String → Except String String)
    (startPage batchId total : Nat) :
    List String → Nat → List Event × Except String (List (Nat × String))
  | [], _ => ([], Except.ok [])
  | img :: rest, i =>
    match recog img with
    | Except.error e => ([], Except.error e)
    | Except.ok t =>
      let r := ocrLoop recog startPage batchId total rest (i + 1)
      (Event.progress batchId (i + 1) total :: r.1,
       match r.2 with
       | Except.ok pages => Except.ok ((startPage + i, t) :: pages)
       | Except.error e => Except.error e)

/-- The worker `process_pdf_chunk` (src/main.py lines 155-200; identical
in src/streamlit_app.py lines 152-193).  `raster` is the result of the
`convert_from_path` call for the batch's page range.  The function returns
the events put on the queue, in order, together with the returned outcome:

    queue.put(('START', batch_id, f"Pages {start_page}-{end_page}"))
    images = convert_from_path(...)       -- may raise
    total = len(images)
    ... per-image loop ...                 -- may raise
    queue.put(('DONE', batch_id)); return (True, results)
  except e:
    queue.put(('DONE', batch_id)); return (False, str(e))
-/
def process_pdf_chunk (raster : Except String (List String))
    (recog : String → Except String String)
    (startPage endPage batchId : Nat) : List Event × BatchOutcome :=
  match raster with
  | Except.error e =>
    ([Event.started batchId (chunkLabel startPage endPage), Event.done batchId],
     BatchOutcome.failure e)
  | Except.ok images =>
    let r := ocrLoop recog startPage batchId images.length images 0
    match r.2 with
    | Except.ok pages =>
      (Event.started batchId (chunkLabel startPage endPage) ::
        (r.1 ++ [Event.done batchId]),
       BatchOutcome.success pages)
    | Except.error e =>
      (Event.started batchId (chunkLabel startPage endPage) ::
        (r.1 ++ [Event.done batchId]),
       BatchOutcome.failure e)

/-- Run one batch: the arguments the chunking loop packs into a task tuple
for `process_pdf_chunk`, with the rasterizer invoked on the batch's
declared range. -/
def runBatch (raster : Nat → Nat → Except String (List String))
    (recog : String → Except String String) (b : Batch) :
    List Event × BatchOutcome :=
  process_pdf_chunk (raster b.startPage b.endPage) recog b.startPage b.endPage b.id

/-- The pure accumulation performed by the collection loop over batch
outcomes: successes extend `extracted_data` in completion order, failures
append one error message.  This is exactly the loop of
src/streamlit_app.py lines 333-338 (which only extends or calls
`st.error`).  The main.py variant of the loop additionally logs a
completion line per successful batch and can therefore abort — that full
loop is `collectLoop` below, which on survival agrees with this
accumulation. -/
def collectOutcomes : List BatchOutcome → List (Nat × String) × List String
  | [] => ([], [])
  | BatchOutcome.success ps :: rest =>
    let r := collectOutcomes rest
    (ps ++ r.1, r.2)
  | BatchOutcome.failure m :: rest =>
    let r := collectOutcomes rest
    (r.1, m :: r.2)

/-- The collection loop of src/main.py lines 413-420 in full:

    for result in pool.imap_unordered(process_pdf_chunk, tasks):
        success, data = result
        if success:
            extracted_data.extend(data)
            pages_done = [p for p, t in data]
            self.log(f"Completed Pages {min(pages_done)}-{max(pages_done)}")
        else:
            self.log(f"Error in batch: {data}")

For a batch that returns `(True, [])` — possible when the rasterizer
returns zero images for the range — `min(pages_done)` is `min([])` and
raises `ValueError('min() arg is an empty sequence')`; the exception
escapes the loop to the handler at line 443, aborting the job and
discarding everything accumulated so far.  On every other input the loop
completes with the accumulation `collectOutcomes`. -/
def collectLoop : List BatchOutcome → Except String (List (Nat × String) × List String)
  | [] => Except.ok ([], [])
  | BatchOutcome.success [] :: _ =>
    Except.error "min() arg is an empty sequence"
  | BatchOutcome.success (p :: ps) :: rest =>
    match collectLoop rest with
    | Except.ok r => Except.ok ((p :: ps) ++ r.1, r.2)
    | Except.error e => Except.error e
  | BatchOutcome.failure m :: rest =>
    match collectLoop rest with
    | Except.ok r => Except.ok (r.1, m :: r.2)
    | Except.error e => Except.error e

/-- The key ordering of `extracted_data.sort(key=lambda x: x[0])`. -/
def pageLe (a b : Nat × String) : Prop := a.1 ≤ b.1

/-- Strict version of `pageLe`, used to state that the rendered sections
are in strictly increasing page order. -/
def pageLt (a b : Nat × String) : Prop := a.1 < b.1

instance : DecidableRel pageLe := fun a b => Nat.decLe a.1 b.1

instance : DecidableRel pageLt := fun a b => Nat.decLt a.1 b.1

instance : IsTotal (Nat × String) pageLe := ⟨fun a b => Nat.le_total a.1 b.1⟩

instance : IsTrans (Nat × String) pageLe := ⟨fun _ _ _ h1 h2 => Nat.le_trans h1 h2⟩

instance : IsAntisymm (Nat × String) pageLt :=
  ⟨fun _ _ h1 h2 => absurd h2 (Nat.lt_asymm h1)⟩

/-- The sort step `extracted_data.sort(key=lambda x: x[0])` (a stable sort
by page number; with distinct page numbers any stable sort agrees). -/
def sortResults (data : List (Nat × String)) : List (Nat × String) :=
  List.insertionSort pageLe data

/-- One rendered section, the f-string `f"--- Page {p} ---\n{t}"`. -/
def renderPage (pr : Nat × String) : String :=
  "--- Page " ++ toString pr.1 ++ " ---\n" ++ pr.2

/-- `"\n".join(...)` over the rendered sections. -/
def renderText (data : List (Nat × String)) : String :=
  String.intercalate "\n" (data.map renderPage)

/-- The final aggregated text produced from a list of batch outcomes in
completion order: collect, sort by page number, render, join. -/
def finalTextOf (outcomes : List BatchOutcome) : String :=
  renderText (sortResults (collectOutcomes outcomes).1)

/-- What the caller observes at the end of `perform_ocr_multiprocess`
(src/main.py lines 412-445): the text written to the output file, the
batch error messages logged, and whether the job reported success
("COMPLETED SUCCESSFULLY" plus the Success message box, reached
unconditionally after the write).  On the CRITICAL ERROR path (the
handler at lines 443-445, reached when the collection loop raises) no
text is written and no batch errors are surfaced: there
`completedSuccessfully` is `false` and `text`/`errors` are the empty
defaults — they are meaningful only when `completedSuccessfully` is
`true`. -/
structure JobReport where
  text : String
  errors : List String
  completedSuccessfully : Bool
  deriving DecidableEq, Repr

/-- The PDF path of `OCRApp.perform_ocr_multiprocess` (src/main.py lines
384-445): partition into batches, run every batch, collect the outcomes
with `collectLoop` (failure outcomes isolated, one error message each;
a zero-page success raises and aborts), then sort the page results,
render and write the text and report success — or, if the collection
loop raised, catch the exception at line 443, log CRITICAL ERROR, write
nothing and report no success. -/
def perform_ocr_multiprocess (pageCount chunkSize : Nat)
    (raster : Nat → Nat → Except String (List String))
    (recog : String → Except String String) : JobReport :=
  let batches := partition pageCount chunkSize
  let outcomes := (batches.map (runBatch raster recog)).map Prod.snd
  match collectLoop outcomes with
  | Except.error _ =>
    { text := "", errors := [], completedSuccessfully := false }
  | Except.ok collected =>
    { text := renderText (sortResults collected.1)
      errors := collected.2
      completedSuccessfully := true }

/-- The single-image branch of `perform_ocr_multiprocess` (src/main.py
lines 426-433): one implicit batch with id 1, the three queue events, and
a final text that is the raw recognized string (no page header):

    self.current_queue.put(('START', 1, "Image Processing"))
    final_text = pytesseract.image_to_string(img)
    self.current_queue.put(('PROGRESS', 1, 1, 1))
    self.current_queue.put(('DONE', 1))
-/
def processSingleImage (recognizedText : String) : List Event × String :=
  ([Event.started 1 "Image Processing", Event.progress 1 1 1, Event.done 1],
   recognizedText)

/-- `recog` fails for the first time at index `j` of `images`, with
message `msg`: all earlier images are recognized successfully. -/
def failsFirstAt (recog : String → Except String String)
    (images : List String) (j : Nat) (msg : String) : Prop :=
  (∃ hj : j < images.length, recog (images.get ⟨j, hj⟩) = Except.error msg) ∧
  ∀ i (hi : i < images.length), i < j → ∃ t, recog (images.get ⟨i, hi⟩) = Except.ok t

end OCR

namespace OCR

/-- The chunking loop in closed form: the k-th (0-indexed) batch is
`⟨k + 1, k*chunkSize + 1, min ((k+1)*chunkSize) pageCount⟩`. -/
theorem partition_eq_map (pageCount chunkSize : Nat) :
    partition pageCount chunkSize =
      (List.range ((pageCount + chunkSize - 1) / chunkSize)).map
        (fun k =>
          { id := k + 1
            startPage := k * chunkSize + 1
            endPage := min ((k + 1) * chunkSize) pageCount }) := by
  unfold partition pyRangeLen
  have hlen : pageCount + 1 - 1 + chunkSize - 1 = pageCount + chunkSize - 1 := by omega
  rw [hlen]
  congr 1
  funext k
  have h1 : 1 + k * chunkSize = k * chunkSize + 1 := Nat.add_comm 1 _
  have h2 : 1 + k * chunkSize + chunkSize - 1 = (k + 1) * chunkSize := by
    have h3 : (k + 1) * chunkSize = k * chunkSize + chunkSize := by ring
    omega
  rw [h2, h1]

theorem partition_length (pageCount chunkSize : Nat) :
    (partition pageCount chunkSize).length = (pageCount + chunkSize - 1) / chunkSize := by
  rw [partition_eq_map]
  simp

theorem partition_get (pageCount chunkSize : Nat) {k : Nat}
    (hk : k < (partition pageCount chunkSize).length) :
    (partition pageCount chunkSize).get ⟨k, hk⟩ =
      { id := k + 1
        startPage := k * chunkSize + 1
        endPage := min ((k + 1) * chunkSize) pageCount } := by
  simp [partition_eq_map, List.get_eq_getElem]

theorem mem_partition_iff {pageCount chunkSize : Nat} {b : Batch} :
    b ∈ partition pageCount chunkSize ↔
      ∃ k, k < (pageCount + chunkSize - 1) / chunkSize ∧
        b = { id := k + 1
              startPage := k * chunkSize + 1
              endPage := min ((k + 1) * chunkSize) pageCount } := by
  constructor
  · intro hmem
    rw [partition_eq_map] at hmem
    obtain ⟨k, hk, hfk⟩ := List.mem_map.mp hmem
    exact ⟨k, List.mem_range.mp hk, hfk.symm⟩
  · rintro ⟨k, hk, rfl⟩
    rw [partition_eq_map]
    exact List.mem_map.mpr ⟨k, List.mem_range.mpr hk, rfl⟩

theorem partition_covers (pageCount chunkSize : Nat) (hc : 1 ≤ chunkSize)
    {p : Nat} (hp1 : 1 ≤ p) (hp2 : p ≤ pageCount) :
    ∃ b, b ∈ partition pageCount chunkSize ∧ b.startPage ≤ p ∧ p ≤ b.endPage ∧
      ∀ b', b' ∈ partition pageCount chunkSize → b'.startPage ≤ p → p ≤ b'.endPage →
        b' = b := by
  have hc0 : 0 < chunkSize := hc
  obtain ⟨q, r, hqr, hrlt, hqdiv⟩ :
      ∃ q r, q * chunkSize + r = p - 1 ∧ r < chunkSize ∧ (p - 1) / chunkSize = q :=
    ⟨(p - 1) / chunkSize, (p - 1) % chunkSize,
      by rw [Nat.mul_comm]; exact Nat.div_add_mod _ _, Nat.mod_lt _ hc0, rfl⟩
  have hmul : (q + 1) * chunkSize = q * chunkSize + chunkSize := by ring
  have hqlt : q < (pageCount + chunkSize - 1) / chunkSize := by
    have : (q + 1) * chunkSize ≤ pageCount + chunkSize - 1 := by omega
    have := (Nat.le_div_iff_mul_le hc0).mpr this
    omega
  refine ⟨{ id := q + 1, startPage := q * chunkSize + 1,
            endPage := min ((q + 1) * chunkSize) pageCount },
    mem_partition_iff.mpr ⟨q, hqlt, rfl⟩,
    show q * chunkSize + 1 ≤ p by omega, ?_, ?_⟩
  · show p ≤ min ((q + 1) * chunkSize) pageCount
    exact Nat.le_min.mpr ⟨by omega, hp2⟩
  · intro b' hb' hs' he'
    obtain ⟨k', hk', rfl⟩ := mem_partition_iff.mp hb'
    have hs2 : k' * chunkSize + 1 ≤ p := hs'
    have he2 : p ≤ (k' + 1) * chunkSize :=
      Nat.le_trans he' (Nat.min_le_left _ _)
    have hmul' : (k' + 1) * chunkSize = k' * chunkSize + chunkSize := by ring
    have hlow : k' * chunkSize ≤ p - 1 := by omega
    have hhigh : p - 1 < (k' + 1) * chunkSize := by omega
    have : (p - 1) / chunkSize = k' := Nat.div_eq_of_lt_le hlow hhigh
    have : k' = q := by omega
    subst this
    rfl

theorem partition_contiguous (pageCount chunkSize : Nat) (hc : 1 ≤ chunkSize)
    {k : Nat} (hk1 : k + 1 < (partition pageCount chunkSize).length) :
    ((partition pageCount chunkSize).get ⟨k + 1, hk1⟩).startPage =
      ((partition pageCount chunkSize).get ⟨k, Nat.lt_of_succ_lt hk1⟩).endPage + 1 := by
  rw [partition_get, partition_get]
  have hmin : min ((k + 1) * chunkSize) pageCount = (k + 1) * chunkSize := by
    apply Nat.min_eq_left
    have hk2 : k + 2 ≤ (pageCount + chunkSize - 1) / chunkSize := by
      rw [partition_length] at hk1
      omega
    have hk3 : (k + 2) * chunkSize ≤ pageCount + chunkSize - 1 :=
      (Nat.le_div_iff_mul_le hc).mp hk2
    have hexp : (k + 2) * chunkSize = (k + 1) * chunkSize + chunkSize := by ring
    omega
  rw [hmin]

/-- C1: for every `pageCount ≥ 1` and `chunkSize ≥ 1`, `partition` returns
`ceil(pageCount / chunkSize)` batches; batch `k` (0-indexed) has id `k + 1`
(ids strictly increasing in page order) and covers pages
`[k*chunkSize + 1, min ((k+1)*chunkSize) pageCount]`; consecutive batches
are contiguous; and every page of `[1, pageCount]` is covered by exactly
one batch. -/
theorem c1_partition_batches (pageCount chunkSize : Nat)
    (hp : 1 ≤ pageCount) (hc : 1 ≤ chunkSize) :
    (partition pageCount chunkSize).length = (pageCount + chunkSize - 1) / chunkSize
    ∧ (∀ k (hk : k < (partition pageCount chunkSize).length),
        (partition pageCount chunkSize).get ⟨k, hk⟩ =
          { id := k + 1
            startPage := k * chunkSize + 1
            endPage := min ((k + 1) * chunkSize) pageCount })
    ∧ (∀ k (hk1 : k + 1 < (partition pageCount chunkSize).length),
        ((partition pageCount chunkSize).get ⟨k + 1, hk1⟩).startPage =
          ((partition pageCount chunkSize).get ⟨k, Nat.lt_of_succ_lt hk1⟩).endPage + 1)
    ∧ (∀ p, 1 ≤ p → p ≤ pageCount →
        ∃ b, b ∈ partition pageCount chunkSize ∧ b.startPage ≤ p ∧ p ≤ b.endPage ∧
          ∀ b', b' ∈ partition pageCount chunkSize → b'.startPage ≤ p → p ≤ b'.endPage →
            b' = b) :=
  ⟨partition_length pageCount chunkSize,
   fun _ hk => partition_get pageCount chunkSize hk,
   fun _ hk1 => partition_contiguous pageCount chunkSize hc hk1,
   fun _ hp1 hp2 => partition_covers pageCount chunkSize hc hp1 hp2⟩

/-- Witness for C1 at the spec scenario `pageCount = 12`, `chunkSize = 5`:
three batches. -/
theorem c1_partition_batches_witness : (partition 12 5).length = 3 :=
  Trans.trans (c1_partition_batches 12 5 (by decide) (by decide)).1 (by decide)

end OCR

namespace OCR

theorem collect_fst_eq (outcomes : List BatchOutcome) :
    (collectOutcomes outcomes).1 = outcomes.flatMap BatchOutcome.pages := by
  induction outcomes with
  | nil => rfl
  | cons o rest ih =>
    cases o with
    | success ps => simp [collectOutcomes, BatchOutcome.pages, ih]
    | failure m => simp [collectOutcomes, BatchOutcome.pages, ih]

theorem collect_snd_eq (outcomes : List BatchOutcome) :
    (collectOutcomes outcomes).2 = outcomes.filterMap BatchOutcome.errMsg := by
  induction outcomes with
  | nil => rfl
  | cons o rest ih =>
    cases o with
    | success ps => simp [collectOutcomes, BatchOutcome.errMsg, ih]
    | failure m => simp [collectOutcomes, BatchOutcome.errMsg, ih]

theorem collect_snd_len (outcomes : List BatchOutcome) :
    (collectOutcomes outcomes).2.length
      = outcomes.countP (fun o => (BatchOutcome.errMsg o).isSome) := by
  induction outcomes with
  | nil => rfl
  | cons o rest ih =>
    cases o with
    | success ps => simp [collectOutcomes, BatchOutcome.errMsg, List.countP_cons, ih]
    | failure m => simp [collectOutcomes, BatchOutcome.errMsg, List.countP_cons, ih]

theorem sorted_lt_of_sorted_nodup {l : List (Nat × String)}
    (hs : List.Sorted pageLe l) (hn : (l.map Prod.fst).Nodup) :
    List.Sorted pageLt l := by
  have hn' : l.Pairwise (fun a b => a.1 ≠ b.1) := List.pairwise_map.mp hn
  exact (hs.and hn').imp (fun h => Nat.lt_of_le_of_ne h.1 h.2)

theorem sortResults_eq_of_perm {l₁ l₂ : List (Nat × String)} (h : l₁.Perm l₂)
    (hnd : (l₁.map Prod.fst).Nodup) : sortResults l₁ = sortResults l₂ := by
  have hperm : (sortResults l₁).Perm (sortResults l₂) :=
    (List.perm_insertionSort pageLe l₁).trans
      (h.trans (List.perm_insertionSort pageLe l₂).symm)
  have hnd₁ : ((sortResults l₁).map Prod.fst).Nodup :=
    ((List.perm_insertionSort pageLe l₁).map Prod.fst).nodup_iff.mpr hnd
  have hnd₂ : ((sortResults l₂).map Prod.fst).Nodup :=
    ((hperm.map Prod.fst).nodup_iff).mp hnd₁
  exact List.eq_of_perm_of_sorted hperm
    (sorted_lt_of_sorted_nodup (List.sorted_insertionSort pageLe l₁) hnd₁)
    (sorted_lt_of_sorted_nodup (List.sorted_insertionSort pageLe l₂) hnd₂)

/-- C2: for any two completion orders of the same batch outcomes (with the
page numbers of the successful pages distinct, as the partition
guarantees), the final aggregated text is identical; it is the `"\n"`-join
of one rendered section per successfully recognized page (failures
contribute none), and the sections appear in strictly increasing page
order. -/
theorem c2_aggregation_order (o o' : List BatchOutcome) (hperm : o.Perm o')
    (hnodup : ((collectOutcomes o).1.map Prod.fst).Nodup) :
    finalTextOf o = finalTextOf o'
    ∧ finalTextOf o = String.intercalate "\n"
        ((sortResults (collectOutcomes o).1).map renderPage)
    ∧ (sortResults (collectOutcomes o).1).Perm (collectOutcomes o).1
    ∧ ((sortResults (collectOutcomes o).1).map Prod.fst).Pairwise (· < ·) := by
  have hcperm : (collectOutcomes o).1.Perm (collectOutcomes o').1 := by
    rw [collect_fst_eq, collect_fst_eq]
    exact List.Perm.flatMap_right BatchOutcome.pages hperm
  refine ⟨?_, rfl, List.perm_insertionSort pageLe _, ?_⟩
  · unfold finalTextOf
    rw [sortResults_eq_of_perm hcperm hnodup]
  · have hs := List.sorted_insertionSort pageLe (collectOutcomes o).1
    have hnd : ((sortResults (collectOutcomes o).1).map Prod.fst).Nodup :=
      ((List.perm_insertionSort pageLe _).map Prod.fst).nodup_iff.mpr hnodup
    exact List.pairwise_map.mpr ((sorted_lt_of_sorted_nodup hs hnd).imp (fun h => h))

/-- Witness for C2: two completion orders of the same three outcomes give
the same final text. -/
theorem c2_aggregation_order_witness :
    finalTextOf [BatchOutcome.success [(2, "b")], BatchOutcome.failure "x",
        BatchOutcome.success [(1, "a")]] =
      finalTextOf [BatchOutcome.success [(1, "a")],
        BatchOutcome.success [(2, "b")], BatchOutcome.failure "x"] :=
  (c2_aggregation_order _ _ (by decide) (by decide)).1

theorem collectLoop_eq_ok (os : List BatchOutcome)
    (h : ∀ o ∈ os, o ≠ BatchOutcome.success []) :
    collectLoop os = Except.ok (collectOutcomes os) := by
  induction os with
  | nil => rfl
  | cons o rest ih =>
    have ih' := ih (fun o' ho' => h o' (List.mem_cons_of_mem _ ho'))
    cases o with
    | success ps =>
      cases ps with
      | nil => exact absurd rfl (h _ (List.mem_cons_self _ _))
      | cons p ps' => simp [collectLoop, collectOutcomes, ih']
    | failure m => simp [collectLoop, collectOutcomes, ih']

/-- C5 counterexample: with mixed outcomes — batch 1 succeeding with page
1, batch 2 failing, batch 3 succeeding with zero pages (the lenient
rasterization-shortfall behavior) — the main.py collection loop raises
`ValueError` at `min(pages_done)` and the whole job aborts: nothing is
written, no per-batch error is surfaced, and batch 1's successful page
reaches no output, contrary to the claim. -/
theorem c5_counterexample :
    collectLoop [BatchOutcome.success [(1, "a")], BatchOutcome.failure "x",
        BatchOutcome.success []] = Except.error "min() arg is an empty sequence"
    ∧ (runBatch
        (fun s _ => if s = 1 then Except.ok ["a"]
          else if s = 6 then Except.error "x" else Except.ok [])
        (fun t => Except.ok t) { id := 1, startPage := 1, endPage := 5 }).2
        = BatchOutcome.success [(1, "a")]
    ∧ perform_ocr_multiprocess 11 5
        (fun s _ => if s = 1 then Except.ok ["a"]
          else if s = 6 then Except.error "x" else Except.ok [])
        (fun t => Except.ok t)
        = { text := "", errors := [], completedSuccessfully := false } :=
  ⟨rfl, rfl, rfl⟩

/-- C5 (amended): a batch-local failure never aborts the collection loop
and is isolated — provided every successful batch carries at least one
page, as whenever rasterization honors its contract: then the main.py
loop survives (agreeing with the pure accumulation), the extracted data
is exactly the concatenation of the successful batches' pages, the error
list has exactly one entry per failed batch (in order, with the failure's
message), and every successful page appears in the sorted data the final
text renders.  A zero-page success, by contrast, aborts the whole main.py
job (the streamlit variant's loop never aborts). -/
theorem c5_failure_isolation (outcomes : List BatchOutcome)
    (hne : ∀ o ∈ outcomes, o ≠ BatchOutcome.success []) :
    collectLoop outcomes = Except.ok (collectOutcomes outcomes)
    ∧ (collectOutcomes outcomes).1 = outcomes.flatMap BatchOutcome.pages
    ∧ (collectOutcomes outcomes).2 = outcomes.filterMap BatchOutcome.errMsg
    ∧ (collectOutcomes outcomes).2.length
        = outcomes.countP (fun o => (BatchOutcome.errMsg o).isSome)
    ∧ finalTextOf outcomes = renderText (sortResults (collectOutcomes outcomes).1)
    ∧ ∀ o, o ∈ outcomes → ∀ pr, pr ∈ BatchOutcome.pages o →
        pr ∈ sortResults (collectOutcomes outcomes).1 := by
  refine ⟨collectLoop_eq_ok outcomes hne, collect_fst_eq outcomes,
    collect_snd_eq outcomes, collect_snd_len outcomes, rfl, ?_⟩
  intro o ho pr hpr
  have h1 : pr ∈ (collectOutcomes outcomes).1 := by
    rw [collect_fst_eq]
    exact List.mem_flatMap.mpr ⟨o, ho, hpr⟩
  exact ((List.perm_insertionSort pageLe _).mem_iff).mpr h1

/-- Witness for C5 (amended) at the spec's example shape (three batches,
the middle one failing, both successes non-empty): the loop survives and
a page of the first successful batch reaches the sorted data. -/
theorem c5_failure_isolation_witness :
    collectLoop [BatchOutcome.success [(1, "a")], BatchOutcome.failure "x",
        BatchOutcome.success [(3, "c")]]
      = Except.ok (collectOutcomes [BatchOutcome.success [(1, "a")],
          BatchOutcome.failure "x", BatchOutcome.success [(3, "c")]])
    ∧ (1, "a") ∈ sortResults (collectOutcomes [BatchOutcome.success [(1, "a")],
        BatchOutcome.failure "x", BatchOutcome.success [(3, "c")]]).1 :=
  ⟨(c5_failure_isolation _ (by decide)).1,
   (c5_failure_isolation _ (by decide)).2.2.2.2.2 (BatchOutcome.success [(1, "a")])
     (by decide) (1, "a") (by decide)⟩

/-- C9: aggregation is idempotent and deterministic — re-running the sort
step any number of times over the already aggregated data renders
byte-identical text. -/
theorem c9_aggregation_idempotent (outcomes : List BatchOutcome) (n : Nat) :
    renderText (sortResults^[n] (sortResults (collectOutcomes outcomes).1))
      = finalTextOf outcomes
    ∧ finalTextOf outcomes = renderText (sortResults (collectOutcomes outcomes).1) := by
  refine ⟨?_, rfl⟩
  have hfix : sortResults (sortResults (collectOutcomes outcomes).1)
      = sortResults (collectOutcomes outcomes).1 :=
    List.Sorted.insertionSort_eq (List.sorted_insertionSort pageLe _)
  unfold finalTextOf
  rw [Function.iterate_fixed hfix n]

end OCR

namespace OCR

theorem ocrLoop_events (recog : String → Except String String)
    (startPage batchId total : Nat) :
    ∀ (images : List String) (i : Nat),
      ∃ m, m ≤ images.length ∧
        (ocrLoop recog startPage batchId total images i).1 =
          (List.range' (i + 1) m).map (fun c => Event.progress batchId c total) := by
  intro images
  induction images with
  | nil =>
    intro i
    exact ⟨0, Nat.le_refl 0, rfl⟩
  | cons img rest ih =>
    intro i
    cases hr : recog img with
    | error e =>
      exact ⟨0, Nat.zero_le _, by simp [ocrLoop, hr]⟩
    | ok t =>
      obtain ⟨m, hm, hev⟩ := ih (i + 1)
      refine ⟨m + 1, Nat.succ_le_succ hm, ?_⟩
      have hstep : (ocrLoop recog startPage batchId total (img :: rest) i).1 =
          Event.progress batchId (i + 1) total ::
            (ocrLoop recog startPage batchId total rest (i + 1)).1 := by
        simp [ocrLoop, hr]
      rw [hstep, hev, List.range'_succ, List.map_cons]

theorem ocrLoop_ok (recog : String → Except String String)
    (startPage batchId total : Nat) :
    ∀ (images : List String) (i : Nat),
      (∀ img ∈ images, ∃ t, recog img = Except.ok t) →
      (ocrLoop recog startPage batchId total images i).1 =
        (List.range' (i + 1) images.length).map
          (fun c => Event.progress batchId c total)
      ∧ ∃ pages, (ocrLoop recog startPage batchId total images i).2 = Except.ok pages
          ∧ pages.map Prod.fst = List.range' (startPage + i) images.length := by
  intro images
  induction images with
  | nil =>
    intro i _
    exact ⟨rfl, [], rfl, rfl⟩
  | cons img rest ih =>
    intro i h
    obtain ⟨t, ht⟩ := h img (List.mem_cons_self img rest)
    obtain ⟨hev, pages, hpg, hfst⟩ :=
      ih (i + 1) (fun x hx => h x (List.mem_cons_of_mem _ hx))
    constructor
    · have hstep : (ocrLoop recog startPage batchId total (img :: rest) i).1 =
          Event.progress batchId (i + 1) total ::
            (ocrLoop recog startPage batchId total rest (i + 1)).1 := by
        simp [ocrLoop, ht]
      rw [hstep, hev, List.length_cons, List.range'_succ, List.map_cons]
    · refine ⟨(startPage + i, t) :: pages, ?_, ?_⟩
      · simp [ocrLoop, ht, hpg]
      · have hadd : startPage + (i + 1) = startPage + i + 1 :=
          (Nat.add_assoc _ _ _).symm
        rw [hadd] at hfst
        simp only [List.map_cons, List.length_cons, List.range'_succ]
        rw [hfst]

theorem ocrLoop_error (recog : String → Except String String)
    (startPage batchId total : Nat) :
    ∀ (images : List String) (i j : Nat) (msg : String),
      failsFirstAt recog images j msg →
      (ocrLoop recog startPage batchId total images i).2 = Except.error msg := by
  intro images
  induction images with
  | nil =>
    intro i j msg hf
    obtain ⟨⟨hj, -⟩, -⟩ := hf
    exact absurd hj (Nat.not_lt_zero j)
  | cons img rest ih =>
    intro i j msg hf
    obtain ⟨⟨hj, herr⟩, hok⟩ := hf
    cases j with
    | zero =>
      have h0 : recog img = Except.error msg := herr
      simp [ocrLoop, h0]
    | succ j' =>
      obtain ⟨t, ht⟩ := hok 0 (Nat.succ_pos _) (Nat.succ_pos j')
      have hf' : failsFirstAt recog rest j' msg := by
        constructor
        · exact ⟨Nat.lt_of_succ_lt_succ hj, herr⟩
        · intro i2 hi2 hij
          exact hok (i2 + 1) (Nat.succ_lt_succ hi2) (Nat.succ_lt_succ hij)
      have hrec := ih (i + 1) j' msg hf'
      have ht' : recog img = Except.ok t := ht
      simp [ocrLoop, ht', hrec]

theorem process_pdf_chunk_events (images : List String)
    (recog : String → Except String String) (s e b : Nat) :
    (process_pdf_chunk (Except.ok images) recog s e b).1 =
      Event.started b (chunkLabel s e) ::
        ((ocrLoop recog s b images.length images 0).1 ++ [Event.done b]) := by
  unfold process_pdf_chunk
  cases h2 : (ocrLoop recog s b images.length images 0).2 with
  | ok pages => simp [h2]
  | error msg => simp [h2]

/-- C3: for every batch, whatever the rasterization and recognition
results, the events put on the queue by `process_pdf_chunk` are exactly
one `START`, then `PROGRESS` events with currents `1, 2, ..., m` (strictly
increasing, hence monotonically non-decreasing) and one constant `total`,
then exactly one terminal `DONE`. -/
theorem c3_event_protocol (raster : Except String (List String))
    (recog : String → Except String String) (s e b : Nat) :
    ∃ m total,
      (process_pdf_chunk raster recog s e b).1 =
        Event.started b (chunkLabel s e) ::
          (((List.range' 1 m).map (fun c => Event.progress b c total)) ++
            [Event.done b]) := by
  cases raster with
  | error msg => exact ⟨0, 0, rfl⟩
  | ok images =>
    obtain ⟨m, hm, hev⟩ := ocrLoop_events recog s b images.length images 0
    exact ⟨m, images.length, by rw [process_pdf_chunk_events, hev]⟩

/-- C4: any engine error inside a batch — a rasterization failure, or a
recognition failure at any page — makes `process_pdf_chunk` emit `DONE`
and return a failure outcome carrying that error's message and no page
results; a failure outcome never carries a partial set of pages. -/
theorem c4_no_partial_success (recog : String → Except String String)
    (s e b : Nat) :
    (∀ msg, process_pdf_chunk (Except.error msg) recog s e b =
        ([Event.started b (chunkLabel s e), Event.done b], BatchOutcome.failure msg))
    ∧ (∀ images j msg, failsFirstAt recog images j msg →
        (process_pdf_chunk (Except.ok images) recog s e b).2 = BatchOutcome.failure msg
        ∧ ((process_pdf_chunk (Except.ok images) recog s e b).1).getLast?
            = some (Event.done b))
    ∧ (∀ raster msg,
        (process_pdf_chunk raster recog s e b).2 = BatchOutcome.failure msg →
        ((process_pdf_chunk raster recog s e b).2).pages = []) := by
  refine ⟨fun msg => rfl, ?_, ?_⟩
  · intro images j msg hf
    have herr := ocrLoop_error recog s b images.length images 0 j msg hf
    constructor
    · unfold process_pdf_chunk
      simp [herr]
    · rw [process_pdf_chunk_events, ← List.cons_append, List.getLast?_concat]
  · intro raster msg hmsg
    rw [hmsg]
    rfl

/-- Witness for C4: a failed rasterization and a recognition failure on
the second page both yield a failure outcome after a terminal `DONE`. -/
theorem c4_no_partial_success_witness :
    process_pdf_chunk (Except.error "boom") (fun t => Except.ok t) 1 5 1 =
      ([Event.started 1 (chunkLabel 1 5), Event.done 1], BatchOutcome.failure "boom")
    ∧ (process_pdf_chunk (Except.ok ["a", "b"])
        (fun t => if t = "b" then Except.error "bad" else Except.ok t) 1 2 3).2
        = BatchOutcome.failure "bad" :=
  ⟨(c4_no_partial_success (fun t => Except.ok t) 1 5 1).1 "boom",
   ((c4_no_partial_success
        (fun t => if t = "b" then Except.error "bad" else Except.ok t) 1 2 3).2.1
      ["a", "b"] 1 "bad"
      ⟨⟨by decide, rfl⟩, by
        intro i hi hij
        have h0 : i = 0 := by omega
        subst h0
        exact ⟨"a", rfl⟩⟩).1⟩

/-- C8 counterexample: a rasterization shortfall is not treated as a batch
failure.  For the declared range 1–2 the rasterizer returns a single
image; the worker succeeds with `total = 1` (not `endPage − startPage + 1
= 2`) and returns only page 1. -/
theorem c8_counterexample :
    process_pdf_chunk (Except.ok ["img1"]) (fun t => Except.ok t) 1 2 7 =
      ([Event.started 7 (chunkLabel 1 2), Event.progress 7 1 1, Event.done 7],
       BatchOutcome.success [(1, "img1")]) := by
  rfl

/-- C8 (amended): the `total` carried by a batch's progress events is the
number of images the rasterizer actually returned, and on success the
page numbers are `startPage, ..., startPage + (number of images) − 1`;
when the rasterizer honors its contract and returns exactly
`endPage − startPage + 1` images, `total` and the page numbers match the
declared range. -/
theorem c8_total_counts_returned_images (recog : String → Except String String)
    (images : List String) (s e b : Nat) :
    (∀ ev, ev ∈ (process_pdf_chunk (Except.ok images) recog s e b).1 →
        ∀ c t, ev = Event.progress b c t → t = images.length)
    ∧ ((∀ img ∈ images, ∃ t, recog img = Except.ok t) →
        ∃ pages, (process_pdf_chunk (Except.ok images) recog s e b).2
            = BatchOutcome.success pages
          ∧ pages.map Prod.fst = List.range' s images.length
          ∧ (images.length = e - s + 1 →
              pages.map Prod.fst = List.range' s (e - s + 1))) := by
  constructor
  · intro ev hev c t heq
    subst heq
    rw [process_pdf_chunk_events] at hev
    rcases List.mem_cons.mp hev with h1 | h2
    · exact absurd h1 (by simp)
    · rcases List.mem_append.mp h2 with h3 | h4
      · obtain ⟨m, hm, hshape⟩ := ocrLoop_events recog s b images.length images 0
        rw [hshape] at h3
        obtain ⟨c', hc', hceq⟩ := List.mem_map.mp h3
        injection hceq with hb hc ht
        exact ht.symm
      · simp at h4
  · intro hall
    obtain ⟨hev, pages, hpg, hfst⟩ := ocrLoop_ok recog s b images.length images 0 hall
    refine ⟨pages, ?_, ?_, ?_⟩
    · unfold process_pdf_chunk
      simp [hpg]
    · rw [hfst, Nat.add_zero]
    · intro hlen
      rw [hfst, Nat.add_zero, hlen]

/-- Witness for C8 (amended): with two images returned for the declared
range 4–5, the successful pages are numbered 4 and 5. -/
theorem c8_total_counts_returned_images_witness :
    ((process_pdf_chunk (Except.ok ["x", "y"]) (fun t => Except.ok t) 4 5 2).2).pages.map
        Prod.fst = [4, 5] := by
  obtain ⟨pages, hp, hfst, -⟩ :=
    (c8_total_counts_returned_images (fun t => Except.ok t) ["x", "y"] 4 5 2).2
      (fun img _ => ⟨img, rfl⟩)
  rw [hp]
  show pages.map Prod.fst = [4, 5]
  rw [hfst]
  decide

end OCR

namespace OCR

/-- C6 counterexample: for a single-image input the written text is the
raw recognized string — it does not carry the `--- Page 1 ---` header the
claim requires (at recognized text "hello" the output is "hello", not
"--- Page 1 ---\nhello"). -/
theorem c6_counterexample :
    (processSingleImage "hello").2 = "hello"
    ∧ (processSingleImage "hello").2 ≠ "--- Page 1 ---\n" ++ "hello" := by
  decide

/-- C6 (amended): a single-image input is treated as one implicit batch of
one page — the sink observes exactly `Started`, `Progress(1,1)`,
`Finished` for batch 1 — and the output text is exactly the recognized
text, with no page header or section. -/
theorem c6_single_image (recognizedText : String) :
    processSingleImage recognizedText =
      ([Event.started 1 "Image Processing", Event.progress 1 1 1, Event.done 1],
       recognizedText) :=
  rfl

/-- C7 counterexample: for `pageCount = 0` no `InvalidInput` failure
occurs — `partition` returns the empty batch list, nothing is dispatched,
and the job runs to completion reporting success with empty output. -/
theorem c7_counterexample :
    partition 0 5 = []
    ∧ perform_ocr_multiprocess 0 5 (fun _ _ => Except.error "raster")
        (fun t => Except.ok t) =
        { text := "", errors := [], completedSuccessfully := true } := by
  decide

/-- C7 (amended): if `pageCount < 1` then `partition` returns zero batches
and no batch is dispatched; rather than failing with `InvalidInput`, the
job completes successfully with empty text and no errors. -/
theorem c7_zero_pages (pageCount chunkSize : Nat)
    (raster : Nat → Nat → Except String (List String))
    (recog : String → Except String String) (h : pageCount < 1) :
    partition pageCount chunkSize = []
    ∧ perform_ocr_multiprocess pageCount chunkSize raster recog =
        { text := "", errors := [], completedSuccessfully := true } := by
  have h0 : pageCount = 0 := by omega
  subst h0
  have hpart : partition 0 chunkSize = [] := by
    unfold partition pyRangeLen
    have hz : (0 + 1 - 1 + chunkSize - 1) / chunkSize = 0 := by
      rcases Nat.eq_zero_or_pos chunkSize with hcz | hcp
      · subst hcz
        rfl
      · apply Nat.div_eq_of_lt
        omega
    rw [hz]
    rfl
  refine ⟨hpart, ?_⟩
  unfold perform_ocr_multiprocess
  rw [hpart]
  rfl

/-- Witness for C7 (amended) at `pageCount = 0`, `chunkSize = 3`. -/
theorem c7_zero_pages_witness :
    partition 0 3 = []
    ∧ perform_ocr_multiprocess 0 3 (fun _ _ => Except.ok []) (fun t => Except.ok t) =
        { text := "", errors := [], completedSuccessfully := true } :=
  c7_zero_pages 0 3 (fun _ _ => Except.ok []) (fun t => Except.ok t) (by decide)

theorem collect_all_failures (os : List BatchOutcome)
    (h : ∀ o ∈ os, ∃ m, o = BatchOutcome.failure m) :
    (collectOutcomes os).1 = [] ∧ (collectOutcomes os).2.length = os.length := by
  induction os with
  | nil => exact ⟨rfl, rfl⟩
  | cons o rest ih =>
    obtain ⟨m, hm⟩ := h o (List.mem_cons_self o rest)
    subst hm
    obtain ⟨ih1, ih2⟩ := ih (fun o' ho' => h o' (List.mem_cons_of_mem _ ho'))
    exact ⟨ih1, by simp [collectOutcomes, ih2]⟩

/-- C10: when every dispatched batch produces a failure outcome, the job
still aggregates the (empty) success set: it writes the empty string as
output text, reports completion as success exactly as in the all-success
case, and surfaces the failures only as the per-batch error list (one
entry per batch). -/
theorem c10_all_batches_failed (pageCount chunkSize : Nat)
    (raster : Nat → Nat → Except String (List String))
    (recog : String → Except String String)
    (hfail : ∀ b ∈ partition pageCount chunkSize,
      ∃ msg, (runBatch raster recog b).2 = BatchOutcome.failure msg) :
    (perform_ocr_multiprocess pageCount chunkSize raster recog).text = ""
    ∧ (perform_ocr_multiprocess pageCount chunkSize raster recog).completedSuccessfully
        = true
    ∧ (perform_ocr_multiprocess pageCount chunkSize raster recog).errors.length
        = (partition pageCount chunkSize).length := by
  have hout : ∀ o ∈ ((partition pageCount chunkSize).map (runBatch raster recog)).map
      Prod.snd, ∃ msg, o = BatchOutcome.failure msg := by
    intro o ho
    obtain ⟨pr, hpr, hsnd⟩ := List.mem_map.mp ho
    obtain ⟨b, hb, hrb⟩ := List.mem_map.mp hpr
    obtain ⟨msg, hmsg⟩ := hfail b hb
    refine ⟨msg, ?_⟩
    rw [← hsnd, ← hrb]
    exact hmsg
  have hne : ∀ o ∈ ((partition pageCount chunkSize).map (runBatch raster recog)).map
      Prod.snd, o ≠ BatchOutcome.success [] := by
    intro o ho heq
    obtain ⟨msg, hmsg⟩ := hout o ho
    rw [heq] at hmsg
    simp at hmsg
  have hloop := collectLoop_eq_ok _ hne
  obtain ⟨h1, h2⟩ := collect_all_failures _ hout
  refine ⟨?_, ?_, ?_⟩
  · simp only [perform_ocr_multiprocess, hloop]
    rw [h1]
    rfl
  · simp only [perform_ocr_multiprocess, hloop]
  · simp only [perform_ocr_multiprocess, hloop]
    rw [h2]
    simp

/-- Witness for C10: two pages in one batch whose rasterization fails. -/
theorem c10_all_batches_failed_witness :
    (perform_ocr_multiprocess 2 5 (fun _ _ => Except.error "boom")
        (fun t => Except.ok t)).text = ""
    ∧ (perform_ocr_multiprocess 2 5 (fun _ _ => Except.error "boom")
        (fun t => Except.ok t)).completedSuccessfully = true :=
  And.intro
    (c10_all_batches_failed 2 5 (fun _ _ => Except.error "boom") (fun t => Except.ok t)
      (fun _ _ => ⟨"boom", rfl⟩)).1
    (c10_all_batches_failed 2 5 (fun _ _ => Except.error "boom") (fun t => Except.ok t)
      (fun _ _ => ⟨"boom", rfl⟩)).2.1

end OCR
